import Mathlib

/-!
Shallow embedding of the Starlight VoIP signaling server (`server.js`) and of
the client-side `VoIPController` (`src/lib/VoIPController.ts`), together with
proofs of the specification claims about matchmaking, signal relay,
disconnection cleanup, reconnection, bitrate computation, quality
classification and teardown.

Client ids, room ids and opaque payloads are modelled as `Nat`; JS `Map`s are
modelled as association lists keyed by `id` (insertion order preserved, `set`
replaces in place, `delete` filters); the `waitingQueue` array is a `List Nat`
of client ids with the head being the oldest entry.  Handlers are pure
functions from server state to server state paired with the ordered list of
externally visible actions (messages sent over sockets, room deletions).
-/

namespace Signaling

/-- Server-side client record (`client` object in `server.js`): id plus the
mutable `partner` and `room` fields.  The socket handle and the stats
sub-record are not modelled. -/
structure Client where
  id : Nat
  partner : Option Nat
  room : Option Nat
deriving DecidableEq, Repr

/-- Server-side room record (`room` object in `createRoom`). -/
structure Room where
  id : Nat
  participants : Nat × Nat
  createdAt : Nat
deriving DecidableEq, Repr

/-- The three pieces of shared mutable server state: `connections`, `rooms`
and `waitingQueue` from `server.js`. -/
structure ServerState where
  connections : List Client
  rooms : List Room
  waitingQueue : List Nat
deriving DecidableEq, Repr

/-- Events sent to clients over their sockets (the `type`/`payload` JSON
envelopes relevant to the claims). -/
inductive Event where
  | waiting (position : Nat)
  | matched (partnerId roomId : Nat) (initiator : Bool)
  | leftQueue
  | signalMsg (fromId sig : Nat)
  | invalidSignalTarget
  | partnerDisconnected (partnerId : Nat)
deriving DecidableEq, Repr

/-- Externally visible server actions, in program order: a socket send, or the
deletion of a room (which logs the room duration computed from `createdAt`). -/
inductive Action where
  | send (dest : Nat) (ev : Event)
  | roomDeleted (roomId duration : Nat)
deriving DecidableEq, Repr

/-- `connections.get cid` -/
def lookupClient (conns : List Client) (cid : Nat) : Option Client :=
  conns.find? (fun c => c.id == cid)

/-- In-place update of the `partner`/`room` fields of the client with id
`cid` (mutation of the client object held in the `connections` map). -/
def setPair (conns : List Client) (cid : Nat) (p r : Option Nat) : List Client :=
  conns.map (fun c => if c.id == cid then { c with partner := p, room := r } else c)

/-- `connections.delete cid` -/
def deleteClient (conns : List Client) (cid : Nat) : List Client :=
  conns.filter (fun c => c.id != cid)

/-- `rooms.get rid` -/
def lookupRoom (rooms : List Room) (rid : Nat) : Option Room :=
  rooms.find? (fun r => r.id == rid)

/-- `rooms.set r.id r` (replaces in place if the key exists, else appends). -/
def setRoom (rooms : List Room) (r : Room) : List Room :=
  if rooms.any (fun x => x.id == r.id) then
    rooms.map (fun x => if x.id == r.id then r else x)
  else
    rooms ++ [r]

/-- `rooms.delete rid` -/
def deleteRoom (rooms : List Room) (rid : Nat) : List Room :=
  rooms.filter (fun r => r.id != rid)

/-- `waitingQueue.findIndex(c => c.id === cid)` followed by `splice(index, 1)`:
removes the first occurrence of `cid`, leaves the queue unchanged if absent. -/
def removeFirst (q : List Nat) (cid : Nat) : List Nat :=
  match q with
  | [] => []
  | x :: xs => if x = cid then xs else x :: removeFirst xs cid

/-- `findMatch(client, preferences)`: ignores the preferences and, when the
queue is non-empty, shifts off the oldest waiting client (the head). Returns
the popped client id together with the remaining queue. -/
def findMatch (prefs : Nat) (q : List Nat) : Option (Nat × List Nat) :=
  match q with
  | [] => none
  | x :: xs => some (x, xs)

/-- `createRoom(client1, client2)`: registers the room, sets both clients'
`partner`/`room` fields, and sends both `matched` events — `initiator: true`
to `client1` and `initiator: false` to `client2`. -/
def createRoom (s : ServerState) (c1 c2 : Nat) (roomId now : Nat) :
    ServerState × List Action :=
  let room : Room := { id := roomId, participants := (c1, c2), createdAt := now }
  let conns := setPair (setPair s.connections c1 (some c2) (some roomId)) c2 (some c1) (some roomId)
  ({ connections := conns, rooms := setRoom s.rooms room, waitingQueue := s.waitingQueue },
   [Action.send c1 (Event.matched c2 roomId true),
    Action.send c2 (Event.matched c1 roomId false)])

/-- `handleJoinQueue(client, payload)`: remove the requester from the queue if
present, try `findMatch`; on a match create the room, otherwise append the
requester to the queue tail and send it a `waiting` event whose `position` is
the queue length after the push. -/
def handleJoinQueue (s : ServerState) (cid prefs roomId now : Nat) :
    ServerState × List Action :=
  let q1 := removeFirst s.waitingQueue cid
  match findMatch prefs q1 with
  | some (m, q2) => createRoom { s with waitingQueue := q2 } cid m roomId now
  | none =>
      let q2 := q1 ++ [cid]
      ({ s with waitingQueue := q2 }, [Action.send cid (Event.waiting q2.length)])

/-- `handleLeaveQueue(client)`: remove the client if present and acknowledge
with `left-queue`; otherwise do nothing. -/
def handleLeaveQueue (s : ServerState) (cid : Nat) : ServerState × List Action :=
  if cid ∈ s.waitingQueue then
    ({ s with waitingQueue := removeFirst s.waitingQueue cid },
     [Action.send cid Event.leftQueue])
  else (s, [])

/-- `handleSignal(client, payload)`: deliver the payload to `to` only when the
target exists and its recorded `partner` equals the sender's id; otherwise
answer the sender with an `error` event.  No state is changed. -/
def handleSignal (s : ServerState) (senderId toId sig : Nat) : List Action :=
  match lookupClient s.connections toId with
  | some target =>
      if target.partner = some senderId then
        [Action.send toId (Event.signalMsg senderId sig)]
      else
        [Action.send senderId Event.invalidSignalTarget]
  | none => [Action.send senderId Event.invalidSignalTarget]

/-- The partner-notification block of `handleDisconnection`: if the closing
client is paired and the partner is still registered, clear the partner's
`partner`/`room` fields and send it `partner-disconnected`. -/
def disconnectPartnerStep (s : ServerState) (c : Client) : List Client × List Action :=
  match c.partner with
  | some pid =>
      match lookupClient s.connections pid with
      | some _ =>
          (setPair s.connections pid none none,
           [Action.send pid (Event.partnerDisconnected c.id)])
      | none => (s.connections, [])
  | none => (s.connections, [])

/-- The room-cleanup block of `handleDisconnection`: if the closing client is
in a registered room, compute the room's duration from its `createdAt` and
delete the room. -/
def disconnectRoomStep (s : ServerState) (c : Client) (now : Nat) :
    List Room × List Action :=
  match c.room with
  | some rid =>
      match lookupRoom s.rooms rid with
      | some room =>
          (deleteRoom s.rooms rid, [Action.roomDeleted rid (now - room.createdAt)])
      | none => (s.rooms, [])
  | none => (s.rooms, [])

/-- `handleDisconnection(client)`: remove from the queue; if paired, clear the
partner's `partner`/`room` and notify it; if in a room, compute the room's
duration from `createdAt` and delete the room; finally delete the client from
`connections`.  The action list follows program order: the partner
notification precedes the room deletion. -/
def handleDisconnection (s : ServerState) (c : Client) (now : Nat) :
    ServerState × List Action :=
  ({ connections := deleteClient (disconnectPartnerStep s c).1 c.id,
     rooms := (disconnectRoomStep s c now).1,
     waitingQueue := removeFirst s.waitingQueue c.id },
   (disconnectPartnerStep s c).2 ++ (disconnectRoomStep s c now).2)

/-- Inbound events driving the server state, as dispatched by the socket
layer: a new connection (fresh client record), or one of the handled
messages / the socket-close event for an existing client. -/
inductive Msg where
  | connect (cid : Nat)
  | joinQueue (cid prefs roomId now : Nat)
  | leaveQueue (cid : Nat)
  | disconnect (cid now : Nat)
deriving DecidableEq, Repr

/-- One dispatch step.  Message handlers only run for currently connected
clients; a `connect` for an id already present is ignored (the server's
`generateId` always produces fresh ids). -/
def step (s : ServerState) : Msg → ServerState
  | Msg.connect cid =>
      if (lookupClient s.connections cid).isSome then s
      else { s with connections := s.connections ++ [{ id := cid, partner := none, room := none }] }
  | Msg.joinQueue cid prefs rid now =>
      if (lookupClient s.connections cid).isSome then
        (handleJoinQueue s cid prefs rid now).1
      else s
  | Msg.leaveQueue cid =>
      if (lookupClient s.connections cid).isSome then
        (handleLeaveQueue s cid).1
      else s
  | Msg.disconnect cid now =>
      match lookupClient s.connections cid with
      | some c => (handleDisconnection s c now).1
      | none => s

/-- The empty initial server state. -/
def initState : ServerState := { connections := [], rooms := [], waitingQueue := [] }

/-- Running a trace of inbound events from a state. -/
def run (s : ServerState) (ms : List Msg) : ServerState := ms.foldl step s

/-- Trace condition: along the trace, a `join-queue` is only handled for a
client that is currently unpaired (no re-join while in a call). -/
def NoRejoinWhilePaired : ServerState → List Msg → Prop
  | _, [] => True
  | s, m :: ms =>
      (match m with
       | Msg.joinQueue cid _ _ _ =>
           ∀ c, lookupClient s.connections cid = some c → c.partner = none ∧ c.room = none
       | _ => True) ∧ NoRejoinWhilePaired (step s m) ms

end Signaling

namespace VoIPController

/-- Client-side connection states (`ConnectionState` in `types.ts`). -/
inductive ConnectionState where
  | initializing
  | ready
  | searching
  | connecting
  | connected
  | reconnecting
  | disconnected
  | failed
deriving DecidableEq, Repr

/-- The two mutable fields backing `calculateBitrate`: `previousBytes` and
`previousTimestamp`.  Both start at `0`, the sentinel the code uses to detect
the first sample.  JS numbers are modelled as rationals. -/
structure BitrateState where
  previousBytes : ℚ
  previousTimestamp : ℚ
deriving DecidableEq, Repr

/-- JavaScript `Math.round`: round half away from zero upward, i.e. the floor
of `x + 1/2`. -/
def jsRound (x : ℚ) : ℤ := ⌊x + 1 / 2⌋

/-- `calculateBitrate(currentBytes, currentTimestamp)`: on the first sample
(`previousTimestamp === 0`) record the counters and return `0`; afterwards
return `Math.round` of `(byte delta) × 8 / (timestamp delta in seconds)` and
update the recorded counters. -/
def calculateBitrate (st : BitrateState) (currentBytes currentTimestamp : ℚ) :
    ℤ × BitrateState :=
  if st.previousTimestamp = 0 then
    (0, { previousBytes := currentBytes, previousTimestamp := currentTimestamp })
  else
    let bytes := currentBytes - st.previousBytes
    let time := (currentTimestamp - st.previousTimestamp) / 1000
    let bitrate := bytes * 8 / time
    (jsRound bitrate, { previousBytes := currentBytes, previousTimestamp := currentTimestamp })

/-- Discrete call-quality levels (`CallQuality` in `types.ts`). -/
inductive CallQuality where
  | excellent
  | good
  | fair
  | poor
  | unknown
deriving DecidableEq, Repr

/-- The fields of a quality sample that `QualityMonitor.calculateQuality`
reads: `audio.packetLoss`, `audio.jitter` and `connection.roundTripTime`.
The remaining `CallStats` fields (bitrates, codecs, resolution, candidate
types) are never consulted by the classifier and are omitted. -/
structure AudioStats where
  packetLoss : ℚ
  jitter : ℚ
deriving DecidableEq, Repr

structure ConnStats where
  roundTripTime : ℚ
deriving DecidableEq, Repr

structure CallStats where
  audio : AudioStats
  connection : ConnStats
deriving DecidableEq, Repr

/-- The threshold cascade at the end of `calculateQuality`, applied to the
three averages in strict descending order of desirability. -/
def classify (avgRtt avgPacketLoss avgJitter : ℚ) : CallQuality :=
  if avgRtt < 150 ∧ avgPacketLoss < 1 ∧ avgJitter < 30 then
    CallQuality.excellent
  else if avgRtt < 300 ∧ avgPacketLoss < 3 ∧ avgJitter < 50 then
    CallQuality.good
  else if avgRtt < 500 ∧ avgPacketLoss < 5 ∧ avgJitter < 100 then
    CallQuality.fair
  else
    CallQuality.poor

/-- `history.slice(-3)`: the most recent (at most) three samples. -/
def recentSamples (history : List CallStats) : List CallStats :=
  history.drop (history.length - 3)

/-- The `avgRtt` value of `calculateQuality`: mean round-trip time of the
most recent 3 samples. -/
def avgRtt (history : List CallStats) : ℚ :=
  ((recentSamples history).map (fun s => s.connection.roundTripTime)).sum /
    ((recentSamples history).length : ℚ)

/-- The `avgPacketLoss` value of `calculateQuality`. -/
def avgPacketLoss (history : List CallStats) : ℚ :=
  ((recentSamples history).map (fun s => s.audio.packetLoss)).sum /
    ((recentSamples history).length : ℚ)

/-- The `avgJitter` value of `calculateQuality`. -/
def avgJitter (history : List CallStats) : ℚ :=
  ((recentSamples history).map (fun s => s.audio.jitter)).sum /
    ((recentSamples history).length : ℚ)

/-- `QualityMonitor.calculateQuality()`: `unknown` on an empty history, else
the threshold cascade applied to the averages of the most recent 3 samples. -/
def calculateQuality (history : List CallStats) : CallQuality :=
  if history.length = 0 then CallQuality.unknown
  else classify (avgRtt history) (avgPacketLoss history) (avgJitter history)

/-- Desirability order on quality levels: `excellent > good > fair > poor`.
`unknown` is ranked with `poor`; `classify` never returns it. -/
def qualityRank : CallQuality → Nat
  | CallQuality.excellent => 3
  | CallQuality.good => 2
  | CallQuality.fair => 1
  | CallQuality.poor => 0
  | CallQuality.unknown => 0

/-- `maxReconnectAttempts` field of `VoIPController`. -/
def maxReconnectAttempts : Nat := 5

/-- The base delay of the linear backoff: `setTimeout(..., 2000 * attempts)`. -/
def reconnectBaseDelay : Nat := 2000

/-- The part of the controller state that drives reconnection:
`reconnectAttempts`, `partnerId`, the reported connection state, and whether a
reconnect scheduled by `setTimeout` is still outstanding. -/
structure LifecycleState where
  reconnectAttempts : Nat
  partnerId : Option Nat
  connState : ConnectionState
  pendingReconnect : Bool
deriving DecidableEq, Repr

/-- `handleDisconnection()`: while attempts remain and a partner is assigned,
increment the counter, report `reconnecting` and schedule a reconnect after
`2000 * attempts` ms (returned as `some delay`); otherwise report
`disconnected` and run `cleanupPeerConnection`, which clears `partnerId`. -/
def handleDisconnection (s : LifecycleState) : LifecycleState × Option Nat :=
  if s.reconnectAttempts < maxReconnectAttempts ∧ s.partnerId.isSome then
    ({ s with reconnectAttempts := s.reconnectAttempts + 1,
              connState := ConnectionState.reconnecting,
              pendingReconnect := true },
     some (reconnectBaseDelay * (s.reconnectAttempts + 1)))
  else
    ({ s with connState := ConnectionState.disconnected, partnerId := none }, none)

/-- Events driving the reconnection logic: loss of the signaling socket, the
outcome of an outstanding scheduled `reconnect()` call (failure re-enters
`handleDisconnection`, success resets the attempt counter), and a `matched`
notification assigning a partner. -/
inductive LifecycleEvent where
  | socketLoss
  | reconnectFailed
  | reconnectSucceeded
  | matchedWith (pid : Nat)
deriving DecidableEq, Repr

/-- One step of the reconnection state machine.  Reconnect outcomes only
occur while a scheduled reconnect is outstanding. -/
def lstep (s : LifecycleState) (e : LifecycleEvent) : LifecycleState :=
  match e with
  | LifecycleEvent.socketLoss => (handleDisconnection s).1
  | LifecycleEvent.reconnectFailed =>
      if s.pendingReconnect then
        (handleDisconnection { s with pendingReconnect := false }).1
      else s
  | LifecycleEvent.reconnectSucceeded =>
      if s.pendingReconnect then
        { s with pendingReconnect := false, reconnectAttempts := 0 }
      else s
  | LifecycleEvent.matchedWith pid =>
      { s with partnerId := some pid, connState := ConnectionState.connecting }

/-- Controller state right after `initialize()`. -/
def initLifecycle : LifecycleState :=
  { reconnectAttempts := 0, partnerId := none,
    connState := ConnectionState.ready, pendingReconnect := false }

/-- Running a sequence of lifecycle events. -/
def lrun (s : LifecycleState) (es : List LifecycleEvent) : LifecycleState :=
  es.foldl lstep s

/-- The resources owned by the controller that the teardown path touches:
both timers, the peer session, the partner id, the quality-monitor history,
the two media streams (as lists of track handles) and the socket. -/
structure ControllerRes where
  heartbeatInterval : Option Nat
  statsInterval : Option Nat
  peer : Option Nat
  partnerId : Option Nat
  monitorHistory : List CallStats
  localStream : Option (List Nat)
  screenStream : Option (List Nat)
  ws : Option Nat
deriving DecidableEq, Repr

/-- Side effects performed by the teardown path. -/
inductive TeardownAct where
  | clearTimer (h : Nat)
  | destroyPeer (p : Nat)
  | stopTrack (t : Nat)
  | closeSocket (w : Nat)
deriving DecidableEq, Repr

/-- `stopHeartbeat()`: clear the heartbeat timer only if one is set. -/
def stopHeartbeat (s : ControllerRes) : ControllerRes × List TeardownAct :=
  match s.heartbeatInterval with
  | some h => ({ s with heartbeatInterval := none }, [TeardownAct.clearTimer h])
  | none => (s, [])

/-- `cleanupPeerConnection()`: clear the stats timer if set, destroy the peer
if present, null the partner id and reset the quality monitor. -/
def cleanupPeerConnection (s : ControllerRes) : ControllerRes × List TeardownAct :=
  let step1 : ControllerRes × List TeardownAct :=
    match s.statsInterval with
    | some h => ({ s with statsInterval := none }, [TeardownAct.clearTimer h])
    | none => (s, [])
  let step2 : ControllerRes × List TeardownAct :=
    match step1.1.peer with
    | some p => ({ step1.1 with peer := none }, [TeardownAct.destroyPeer p])
    | none => (step1.1, [])
  ({ step2.1 with partnerId := none, monitorHistory := [] }, step1.2 ++ step2.2)

/-- `destroy()`: stop the heartbeat, clean up the peer connection, stop and
drop both media streams, and close the socket — each guarded on presence. -/
def destroy (s : ControllerRes) : ControllerRes × List TeardownAct :=
  let step1 := stopHeartbeat s
  let step2 := cleanupPeerConnection step1.1
  let step3 : ControllerRes × List TeardownAct :=
    match step2.1.localStream with
    | some ts => ({ step2.1 with localStream := none }, ts.map TeardownAct.stopTrack)
    | none => (step2.1, [])
  let step4 : ControllerRes × List TeardownAct :=
    match step3.1.screenStream with
    | some ts => ({ step3.1 with screenStream := none }, ts.map TeardownAct.stopTrack)
    | none => (step3.1, [])
  let step5 : ControllerRes × List TeardownAct :=
    match step4.1.ws with
    | some w => ({ step4.1 with ws := none }, [TeardownAct.closeSocket w])
    | none => (step4.1, [])
  (step5.1, step1.2 ++ step2.2 ++ step3.2 ++ step4.2 ++ step5.2)

end VoIPController

namespace Signaling

theorem mem_of_mem_removeFirst {q : List Nat} {cid x : Nat} :
    x ∈ removeFirst q cid → x ∈ q := by
  induction q with
  | nil => simp [removeFirst]
  | cons y ys ih =>
      simp only [removeFirst]
      split
      · intro h
        exact List.mem_cons_of_mem _ h
      · intro h
        rcases List.mem_cons.mp h with h | h
        · exact h ▸ List.mem_cons_self _ _
        · exact List.mem_cons_of_mem _ (ih h)

theorem nodup_removeFirst {q : List Nat} (cid : Nat) (h : q.Nodup) :
    (removeFirst q cid).Nodup := by
  induction q with
  | nil => simp [removeFirst]
  | cons y ys ih =>
      simp only [removeFirst]
      rcases List.nodup_cons.mp h with ⟨hy, hys⟩
      split
      · exact hys
      · exact List.nodup_cons.mpr ⟨fun hm => hy (mem_of_mem_removeFirst hm), ih hys⟩

theorem not_mem_removeFirst_self {q : List Nat} (cid : Nat) (h : q.Nodup) :
    cid ∉ removeFirst q cid := by
  induction q with
  | nil => simp [removeFirst]
  | cons y ys ih =>
      simp only [removeFirst]
      rcases List.nodup_cons.mp h with ⟨hy, hys⟩
      split
      · rename_i heq
        exact heq ▸ hy
      · rename_i hne
        intro hm
        rcases List.mem_cons.mp hm with h1 | h1
        · exact hne h1.symm
        · exact ih hys h1

theorem lookupClient_eq_id {conns : List Client} {x : Nat} {c : Client}
    (h : lookupClient conns x = some c) : c.id = x := by
  have := List.find?_some h
  simpa using this

theorem lookupClient_map {f : Client → Client} (hf : ∀ c, (f c).id = c.id)
    (conns : List Client) (x : Nat) :
    lookupClient (conns.map f) x = (lookupClient conns x).map f := by
  induction conns with
  | nil => rfl
  | cons c cs ih =>
      simp only [lookupClient, List.map_cons, List.find?_cons, hf c] at *
      cases hb : (c.id == x) with
      | false => simpa [hb] using ih
      | true => simp [hb]

theorem lookupClient_setPair_ne (conns : List Client) (cid : Nat) (p r : Option Nat)
    (x : Nat) (h : x ≠ cid) :
    lookupClient (setPair conns cid p r) x = lookupClient conns x := by
  unfold setPair
  rw [lookupClient_map (fun c => by split <;> rfl)]
  cases hc : lookupClient conns x with
  | none => rfl
  | some c =>
      have hid : c.id = x := lookupClient_eq_id hc
      simp [hid, h]

theorem lookupClient_setPair_self (conns : List Client) (cid : Nat) (p r : Option Nat)
    (c : Client) (h : lookupClient conns cid = some c) :
    lookupClient (setPair conns cid p r) cid = some { c with partner := p, room := r } := by
  unfold setPair
  rw [lookupClient_map (fun c => by split <;> rfl), h]
  have hid : c.id = cid := lookupClient_eq_id h
  simp [hid]

theorem lookupClient_deleteClient_self (conns : List Client) (cid : Nat) :
    lookupClient (deleteClient conns cid) cid = none := by
  unfold deleteClient lookupClient
  rw [List.find?_eq_none]
  intro c hc
  have := List.of_mem_filter hc
  simpa using this

theorem lookupClient_deleteClient_ne (conns : List Client) (cid x : Nat) (h : x ≠ cid) :
    lookupClient (deleteClient conns cid) x = lookupClient conns x := by
  induction conns with
  | nil => rfl
  | cons c cs ih =>
      unfold deleteClient lookupClient at *
      simp only [List.filter_cons]
      by_cases h1 : c.id = cid
      · have hd : (c.id != cid) = false := by simp [h1]
        have hx : (c.id == x) = false := by simp [h1, Ne.symm h]
        simp [hd, List.find?_cons, hx, ih]
      · have hd : (c.id != cid) = true := by simp [h1]
        simp only [hd, if_true]
        cases hb : (c.id == x) with
        | false => simp [List.find?_cons, hb, ih]
        | true => simp [List.find?_cons, hb]

theorem lookupClient_append_some {conns : List Client} {x : Nat} {c' : Client} {n : Client}
    (h : lookupClient (conns ++ [n]) x = some c') :
    lookupClient conns x = some c' ∨ c' = n := by
  induction conns with
  | nil =>
      unfold lookupClient at h
      simp only [List.nil_append, List.find?_cons] at h
      cases hb : (n.id == x) with
      | false => simp [hb, List.find?] at h
      | true =>
          right
          simp [hb] at h
          exact h.symm
  | cons c cs ih =>
      unfold lookupClient at *
      simp only [List.cons_append, List.find?_cons] at *
      cases hb : (c.id == x) with
      | false =>
          rw [hb] at h
          exact ih h
      | true =>
          rw [hb] at h
          exact Or.inl h

theorem lookupRoom_deleteRoom_self (rooms : List Room) (rid : Nat) :
    lookupRoom (deleteRoom rooms rid) rid = none := by
  unfold deleteRoom lookupRoom
  rw [List.find?_eq_none]
  intro r hr
  have := List.of_mem_filter hr
  simpa using this

theorem mem_setRoom {rooms : List Room} {r x : Room} (h : x ∈ setRoom rooms r) :
    x ∈ rooms ∨ x = r := by
  unfold setRoom at h
  split at h
  · rcases List.mem_map.mp h with ⟨y, hy, hxy⟩
    by_cases hb : y.id = r.id
    · right
      simp [hb] at hxy
      exact hxy.symm
    · left
      simp [hb] at hxy
      exact hxy ▸ hy
  · rcases List.mem_append.mp h with h | h
    · exact Or.inl h
    · right
      simpa using h

end Signaling

namespace Signaling

/-- `handleJoinQueue` when the queue (after the idempotent self-removal) is
empty: the requester is queued alone and told position 1. -/
theorem handleJoinQueue_nil (s : ServerState) (cid prefs rid now : Nat)
    (h : removeFirst s.waitingQueue cid = []) :
    handleJoinQueue s cid prefs rid now =
      ({ s with waitingQueue := [cid] }, [Action.send cid (Event.waiting 1)]) := by
  simp only [handleJoinQueue, findMatch, h]
  rfl

/-- `handleJoinQueue` when the queue (after the idempotent self-removal) is
non-empty: the head is popped and a room is created. -/
theorem handleJoinQueue_cons (s : ServerState) (cid prefs rid now m : Nat)
    (q2 : List Nat) (h : removeFirst s.waitingQueue cid = m :: q2) :
    handleJoinQueue s cid prefs rid now =
      createRoom { s with waitingQueue := q2 } cid m rid now := by
  simp only [handleJoinQueue, findMatch, h]

theorem createRoom_fst (s : ServerState) (c1 c2 rid now : Nat) :
    (createRoom s c1 c2 rid now).1 =
      { connections := setPair (setPair s.connections c1 (some c2) (some rid)) c2 (some c1) (some rid),
        rooms := setRoom s.rooms { id := rid, participants := (c1, c2), createdAt := now },
        waitingQueue := s.waitingQueue } := rfl

theorem createRoom_snd (s : ServerState) (c1 c2 rid now : Nat) :
    (createRoom s c1 c2 rid now).2 =
      [Action.send c1 (Event.matched c2 rid true),
       Action.send c2 (Event.matched c1 rid false)] := rfl

/-- Queue invariant: no client id occurs in the waiting queue twice. -/
def QueueNodup (s : ServerState) : Prop := s.waitingQueue.Nodup

/-- Queue invariant: every queued client's registry record is unpaired. -/
def QueuedUnpaired (s : ServerState) : Prop :=
  ∀ cid ∈ s.waitingQueue, ∀ c, lookupClient s.connections cid = some c →
    c.partner = none ∧ c.room = none

theorem queueNodup_step (s : ServerState) (m : Msg) (h : QueueNodup s) :
    QueueNodup (step s m) := by
  cases m with
  | connect cid =>
      simp only [step]
      split
      · exact h
      · exact h
  | joinQueue cid prefs rid now =>
      simp only [step]
      split
      · rcases hq : removeFirst s.waitingQueue cid with _ | ⟨m, q2⟩
        · rw [handleJoinQueue_nil s cid prefs rid now hq]
          simp [QueueNodup]
        · rw [handleJoinQueue_cons s cid prefs rid now m q2 hq, createRoom_fst]
          have h2 := nodup_removeFirst (q := s.waitingQueue) cid h
          rw [hq] at h2
          exact (List.nodup_cons.mp h2).2
      · exact h
  | leaveQueue cid =>
      simp only [step]
      split
      · unfold handleLeaveQueue
        split
        · exact nodup_removeFirst cid h
        · exact h
      · exact h
  | disconnect cid now =>
      simp only [step]
      split
      · exact nodup_removeFirst _ h
      · exact h

theorem queueNodup_run (s : ServerState) (ms : List Msg) (h : QueueNodup s) :
    QueueNodup (run s ms) := by
  induction ms generalizing s with
  | nil => exact h
  | cons m ms ih => exact ih _ (queueNodup_step s m h)

theorem lookup_disconnectPartnerStep {s : ServerState} {c : Client} {x : Nat} {c' : Client}
    (h : lookupClient (disconnectPartnerStep s c).1 x = some c') :
    (c'.partner = none ∧ c'.room = none) ∨ lookupClient s.connections x = some c' := by
  unfold disconnectPartnerStep at h
  split at h
  next pid hpid =>
    split at h
    next p hpl =>
      have h2 : lookupClient (setPair s.connections pid none none) x = some c' := h
      by_cases hx : x = pid
      · subst hx
        rw [lookupClient_setPair_self _ _ _ _ _ hpl] at h2
        have := (Option.some.injEq _ _).mp h2
        exact Or.inl (by rw [← this]; exact ⟨rfl, rfl⟩)
      · rw [lookupClient_setPair_ne _ _ _ _ _ hx] at h2
        exact Or.inr h2
    next hpl =>
      exact Or.inr h
  next hpid =>
    exact Or.inr h

theorem queuedUnpaired_step (s : ServerState) (m : Msg)
    (hn : QueueNodup s) (hu : QueuedUnpaired s)
    (hc : ∀ cid prefs rid now, m = Msg.joinQueue cid prefs rid now →
      ∀ c, lookupClient s.connections cid = some c → c.partner = none ∧ c.room = none) :
    QueuedUnpaired (step s m) := by
  cases m with
  | connect cid =>
      simp only [step]
      split
      · exact hu
      · intro x hx c' hc'
        rcases lookupClient_append_some hc' with h1 | h1
        · exact hu x hx c' h1
        · rw [h1]
          exact ⟨rfl, rfl⟩
  | joinQueue cid prefs rid now =>
      have hjoin := hc cid prefs rid now rfl
      simp only [step]
      split
      · rcases hq : removeFirst s.waitingQueue cid with _ | ⟨m, q2⟩
        · rw [handleJoinQueue_nil s cid prefs rid now hq]
          intro x hx c' hc'
          have hxc : x = cid := by simpa using hx
          subst hxc
          exact hjoin c' hc'
        · rw [handleJoinQueue_cons s cid prefs rid now m q2 hq, createRoom_fst]
          intro x hx c' hc'
          have hq1 : (m :: q2).Nodup := by
            rw [← hq]
            exact nodup_removeFirst cid hn
          have hxq1 : x ∈ removeFirst s.waitingQueue cid := by
            rw [hq]
            exact List.mem_cons_of_mem _ hx
          have hxcid : x ≠ cid := fun he =>
            (not_mem_removeFirst_self cid hn) (he ▸ hxq1)
          have hxm : x ≠ m := fun he => (List.nodup_cons.mp hq1).1 (he ▸ hx)
          rw [lookupClient_setPair_ne _ _ _ _ _ hxm,
              lookupClient_setPair_ne _ _ _ _ _ hxcid] at hc'
          exact hu x (mem_of_mem_removeFirst hxq1) c' hc'
      · exact hu
  | leaveQueue cid =>
      simp only [step]
      split
      · unfold handleLeaveQueue
        split
        · intro x hx c' hc'
          exact hu x (mem_of_mem_removeFirst hx) c' hc'
        · exact hu
      · exact hu
  | disconnect cid now =>
      simp only [step]
      split
      · rename_i c hl
        intro x hx c' hc'
        simp only [handleDisconnection] at hx hc'
        by_cases hxc : x = c.id
        · rw [hxc, lookupClient_deleteClient_self] at hc'
          exact absurd hc' (by simp)
        · rw [lookupClient_deleteClient_ne _ _ _ hxc] at hc'
          rcases lookup_disconnectPartnerStep hc' with h1 | h1
          · exact h1
          · exact hu x (mem_of_mem_removeFirst hx) c' h1
      · exact hu

/-- Both queue invariants are preserved along any trace in which no paired
client re-sends `join-queue`. -/
theorem queuedInv_run (s : ServerState) (ms : List Msg)
    (hn : QueueNodup s) (hu : QueuedUnpaired s)
    (hrj : NoRejoinWhilePaired s ms) :
    QueueNodup (run s ms) ∧ QueuedUnpaired (run s ms) := by
  induction ms generalizing s with
  | nil => exact ⟨hn, hu⟩
  | cons m ms ih =>
      have hstep : QueuedUnpaired (step s m) := by
        apply queuedUnpaired_step s m hn hu
        intro cid prefs rid now hm
        subst hm
        exact hrj.1
      exact ih (step s m) (queueNodup_step s m hn) hstep hrj.2

end Signaling

namespace Signaling

/-- C1 (amended): when a handled `join-queue` finds a match, both `matched`
events carry the same fresh room id and each side's partnerId is the other's
id, and `initiator` is true for exactly one side — the requester whose
`join-queue` triggered the match — while the popped queue entry receives
`initiator: false`. -/
theorem matched_events_spec (s : ServerState) (cid prefs rid now m : Nat) (q2 : List Nat)
    (hn : s.waitingQueue.Nodup)
    (h : removeFirst s.waitingQueue cid = m :: q2) :
    (handleJoinQueue s cid prefs rid now).2 =
      [Action.send cid (Event.matched m rid true),
       Action.send m (Event.matched cid rid false)] ∧
    (∀ dest pid r i, Action.send dest (Event.matched pid r i) ∈
        (handleJoinQueue s cid prefs rid now).2 →
      r = rid ∧ (i = true ↔ dest = cid)) := by
  have hm : m ≠ cid := by
    intro he
    exact not_mem_removeFirst_self cid hn (by rw [h, he]; exact List.mem_cons_self _ _)
  rw [handleJoinQueue_cons s cid prefs rid now m q2 h, createRoom_snd]
  refine ⟨rfl, ?_⟩
  intro dest pid r i hmem
  rcases List.mem_cons.mp hmem with h1 | h1
  · cases h1
    exact ⟨rfl, by simp⟩
  · rcases List.mem_cons.mp h1 with h2 | h2
    · cases h2
      exact ⟨rfl, by simp [hm]⟩
    · exact absurd h2 (List.not_mem_nil _)

/-- Witness for `matched_events_spec`: client 1 waits, client 2 joins. -/
theorem matched_events_spec_witness :
    (handleJoinQueue ⟨[], [], [1]⟩ 2 0 10 5).2 =
      [Action.send 2 (Event.matched 1 10 true),
       Action.send 1 (Event.matched 2 10 false)] :=
  (matched_events_spec ⟨[], [], [1]⟩ 2 0 10 5 1 [] (by decide) (by decide)).1

/-- C1 counterexample: with client 1 already waiting and client 2 joining,
the `matched` event delivered to the waiting client 1 (the popped queue
entry) carries `initiator: false`; the `initiator: true` event goes to the
requester 2 — the opposite of the claimed assignment. -/
theorem matched_initiator_counterexample :
    Action.send 1 (Event.matched 2 10 false) ∈ (handleJoinQueue ⟨[], [], [1]⟩ 2 0 10 5).2 ∧
    Action.send 1 (Event.matched 2 10 true) ∉ (handleJoinQueue ⟨[], [], [1]⟩ 2 0 10 5).2 ∧
    Action.send 2 (Event.matched 1 10 true) ∈ (handleJoinQueue ⟨[], [], [1]⟩ 2 0 10 5).2 := by
  decide

/-- C2 (amended): along every trace, no client id is ever queued twice; and
along every trace in which no already-paired client re-sends `join-queue`,
no queued client's record has a non-null partner or room. -/
theorem queue_invariant (ms : List Msg) :
    QueueNodup (run initState ms) ∧
    (NoRejoinWhilePaired initState ms →
      ∀ cid ∈ (run initState ms).waitingQueue, ∀ c,
        lookupClient (run initState ms).connections cid = some c →
          c.partner = none ∧ c.room = none) := by
  have hn0 : QueueNodup initState := List.nodup_nil
  have hu0 : QueuedUnpaired initState := by
    intro cid hcid c hc
    exact absurd hcid (List.not_mem_nil _)
  exact ⟨queueNodup_run initState ms hn0,
    fun hrj => (queuedInv_run initState ms hn0 hu0 hrj).2⟩

/-- Witness for `queue_invariant` on a short concrete trace. -/
theorem queue_invariant_witness :
    (Client.mk 1 none none).partner = none ∧ (Client.mk 1 none none).room = none :=
  (queue_invariant [Msg.connect 1, Msg.joinQueue 1 0 10 0]).2
    ⟨trivial, by
      refine ⟨?_, trivial⟩
      intro c hc
      rw [show lookupClient (step initState (Msg.connect 1)).connections 1 =
            some (Client.mk 1 none none) from rfl] at hc
      cases hc
      exact ⟨rfl, rfl⟩⟩
    1 (by decide) (Client.mk 1 none none) (by decide)

/-- C2 counterexample: clients 1 and 2 get paired; a further `join-queue`
from the paired client 1 puts 1 back in the waiting queue while its registry
record still has partner 2 and room 10 — queued and paired simultaneously. -/
theorem queue_invariant_counterexample :
    1 ∈ (run initState [Msg.connect 1, Msg.connect 2, Msg.joinQueue 1 0 10 0,
          Msg.joinQueue 2 0 10 0, Msg.joinQueue 1 0 11 1]).waitingQueue ∧
    lookupClient (run initState [Msg.connect 1, Msg.connect 2, Msg.joinQueue 1 0 10 0,
          Msg.joinQueue 2 0 10 0, Msg.joinQueue 1 0 11 1]).connections 1 =
      some (Client.mk 1 (some 2) (some 10)) := by
  decide

/-- C3: a handled `signal` message is delivered to the target iff the target
exists in the registry with recorded partner equal to the sender; in every
other case the sender gets an `error` event and no signal payload is sent to
anyone (in particular the target receives nothing). -/
theorem relaySignal_iff (s : ServerState) (senderId toId sig : Nat) :
    ((∃ t, lookupClient s.connections toId = some t ∧ t.partner = some senderId) →
       handleSignal s senderId toId sig = [Action.send toId (Event.signalMsg senderId sig)]) ∧
    (¬ (∃ t, lookupClient s.connections toId = some t ∧ t.partner = some senderId) →
       handleSignal s senderId toId sig = [Action.send senderId Event.invalidSignalTarget] ∧
       ∀ dest fromId sg, Action.send dest (Event.signalMsg fromId sg) ∉
         handleSignal s senderId toId sig) := by
  constructor
  · rintro ⟨t, ht, hp⟩
    simp [handleSignal, ht, hp]
  · intro hno
    cases hl : lookupClient s.connections toId with
    | none =>
        refine ⟨by simp [handleSignal, hl], ?_⟩
        intro dest fromId sg hmem
        simp [handleSignal, hl] at hmem
    | some t =>
        have hp : ¬ t.partner = some senderId := fun h => hno ⟨t, hl, h⟩
        refine ⟨by simp [handleSignal, hl, hp], ?_⟩
        intro dest fromId sg hmem
        simp [handleSignal, hl, hp] at hmem

/-- Witness for `relaySignal_iff`: 1 is paired with 2, so 2's signal to 1 is
delivered. -/
theorem relaySignal_iff_witness :
    handleSignal ⟨[Client.mk 1 (some 2) (some 5)], [], []⟩ 2 1 99 =
      [Action.send 1 (Event.signalMsg 2 99)] :=
  (relaySignal_iff ⟨[Client.mk 1 (some 2) (some 5)], [], []⟩ 2 1 99).1
    ⟨Client.mk 1 (some 2) (some 5), by decide, by decide⟩

end Signaling

namespace Signaling

/-- C6: when a client paired with a still-registered partner and holding a
registered room disconnects, the partner's `partner`/`room` are nulled, the
partner is sent `partner-disconnected` with the leaver's id, the room is
removed, the leaver is removed from the registry, and the partner
notification precedes the room deletion in the action order, with the
duration computed from the room's `createdAt`. -/
theorem disconnect_cleanup (s : ServerState) (c p : Client) (pid rid now : Nat) (room : Room)
    (hpartner : c.partner = some pid)
    (hp : lookupClient s.connections pid = some p)
    (hpc : pid ≠ c.id)
    (hroom : c.room = some rid)
    (hr : lookupRoom s.rooms rid = some room) :
    (handleDisconnection s c now).2 =
      [Action.send pid (Event.partnerDisconnected c.id),
       Action.roomDeleted rid (now - room.createdAt)] ∧
    lookupClient (handleDisconnection s c now).1.connections pid =
      some { p with partner := none, room := none } ∧
    lookupRoom (handleDisconnection s c now).1.rooms rid = none ∧
    lookupClient (handleDisconnection s c now).1.connections c.id = none := by
  have hps : disconnectPartnerStep s c =
      (setPair s.connections pid none none,
       [Action.send pid (Event.partnerDisconnected c.id)]) := by
    simp only [disconnectPartnerStep, hpartner, hp]
  have hrs : disconnectRoomStep s c now =
      (deleteRoom s.rooms rid, [Action.roomDeleted rid (now - room.createdAt)]) := by
    simp only [disconnectRoomStep, hroom, hr]
  refine ⟨?_, ?_, ?_, ?_⟩
  · simp [handleDisconnection, hps, hrs]
  · simp only [handleDisconnection, hps]
    rw [lookupClient_deleteClient_ne _ _ _ hpc, lookupClient_setPair_self _ _ _ _ _ hp]
  · simp only [handleDisconnection, hrs]
    exact lookupRoom_deleteRoom_self _ _
  · simp only [handleDisconnection]
    exact lookupClient_deleteClient_self _ _

/-- Witness for `disconnect_cleanup`: 1 and 2 paired in room 5; 2 closes. -/
theorem disconnect_cleanup_witness :
    (handleDisconnection
        ⟨[Client.mk 1 (some 2) (some 5), Client.mk 2 (some 1) (some 5)],
         [Room.mk 5 (1, 2) 100], []⟩
        (Client.mk 2 (some 1) (some 5)) 130).2 =
      [Action.send 1 (Event.partnerDisconnected 2), Action.roomDeleted 5 30] :=
  (disconnect_cleanup
      ⟨[Client.mk 1 (some 2) (some 5), Client.mk 2 (some 1) (some 5)],
       [Room.mk 5 (1, 2) 100], []⟩
      (Client.mk 2 (some 1) (some 5)) (Client.mk 1 (some 2) (some 5)) 1 5 130
      (Room.mk 5 (1, 2) 100) rfl (by decide) (by decide) rfl (by decide)).1

/-- C7: a handled `join-queue` first removes the requester from the queue if
present; its outcome is independent of the preferences payload; if the queue
is then non-empty the oldest waiting client (the head) is popped and paired
with the requester via `createRoom`; otherwise the requester is appended and
is sent a `waiting` event with position 1 (the queue is necessarily empty in
this branch, so 1 is its 1-based position). -/
theorem joinQueue_fifo (s : ServerState) (cid prefs prefs2 rid now : Nat) :
    handleJoinQueue s cid prefs rid now = handleJoinQueue s cid prefs2 rid now ∧
    (∀ m q2, removeFirst s.waitingQueue cid = m :: q2 →
       handleJoinQueue s cid prefs rid now =
         createRoom { s with waitingQueue := q2 } cid m rid now) ∧
    (removeFirst s.waitingQueue cid = [] →
       handleJoinQueue s cid prefs rid now =
         ({ s with waitingQueue := [cid] }, [Action.send cid (Event.waiting 1)])) := by
  refine ⟨?_, fun m q2 h => handleJoinQueue_cons s cid prefs rid now m q2 h,
    fun h => handleJoinQueue_nil s cid prefs rid now h⟩
  unfold handleJoinQueue findMatch
  cases removeFirst s.waitingQueue cid <;> rfl

/-- Witness for `joinQueue_fifo`: client 3 waits, client 9 joins and pops it. -/
theorem joinQueue_fifo_witness :
    handleJoinQueue ⟨[], [], [3]⟩ 9 0 10 0 = createRoom ⟨[], [], []⟩ 9 3 10 0 :=
  (joinQueue_fifo ⟨[], [], [3]⟩ 9 0 0 10 0).2.1 3 [] (by decide)

/-- C10: starting from the empty server and running any trace of handled
messages, a further handled `join-queue` can never match a client with
itself: every `matched` event it emits has a partner id different from its
recipient, and any room it adds has two distinct participant ids. -/
theorem no_self_match (ms : List Msg) (cid prefs rid now : Nat) :
    (∀ dest pid r i, Action.send dest (Event.matched pid r i) ∈
        (handleJoinQueue (run initState ms) cid prefs rid now).2 →
      dest ≠ pid) ∧
    (∀ room ∈ (handleJoinQueue (run initState ms) cid prefs rid now).1.rooms,
      room ∉ (run initState ms).rooms →
        room.participants.1 ≠ room.participants.2) := by
  have hn : (run initState ms).waitingQueue.Nodup :=
    queueNodup_run initState ms List.nodup_nil
  rcases hq : removeFirst (run initState ms).waitingQueue cid with _ | ⟨m, q2⟩
  · rw [handleJoinQueue_nil (run initState ms) cid prefs rid now hq]
    constructor
    · intro dest pid r i hmem
      simp at hmem
    · intro room hmem hnot
      exact absurd hmem hnot
  · have hm : m ≠ cid := by
      intro he
      exact not_mem_removeFirst_self cid hn (by rw [hq, he]; exact List.mem_cons_self _ _)
    rw [handleJoinQueue_cons (run initState ms) cid prefs rid now m q2 hq]
    constructor
    · rw [createRoom_snd]
      intro dest pid r i hmem
      rcases List.mem_cons.mp hmem with h1 | h1
      · cases h1
        exact Ne.symm hm
      · rcases List.mem_cons.mp h1 with h2 | h2
        · cases h2
          exact hm
        · exact absurd h2 (List.not_mem_nil _)
    · rw [createRoom_fst]
      intro room hmem hnot
      rcases mem_setRoom hmem with h1 | h1
      · exact absurd h1 hnot
      · rw [h1]
        exact Ne.symm hm

/-- Witness for `no_self_match`: 1 waits (after the trace), 2 joins. -/
theorem no_self_match_witness : (2 : Nat) ≠ 1 :=
  (no_self_match [Msg.connect 1, Msg.connect 2, Msg.joinQueue 1 0 7 0] 2 0 9 4).1
    2 1 9 true (by decide)

end Signaling

namespace VoIPController

theorem destroy_fst (s : ControllerRes) :
    (destroy s).1 =
      ControllerRes.mk none none none none [] none none none := by
  obtain ⟨hb, si, pe, pid, mh, ls, ss, w⟩ := s
  cases hb <;> cases si <;> cases pe <;> cases ls <;> cases ss <;> cases w <;> rfl

theorem cleanupPeerConnection_fst (s : ControllerRes) :
    (cleanupPeerConnection s).1 =
      { s with statsInterval := none, peer := none, partnerId := none,
               monitorHistory := [] } := by
  obtain ⟨hb, si, pe, pid, mh, ls, ss, w⟩ := s
  cases si <;> cases pe <;> rfl

/-- C9: the teardown path is total by construction in this model, and
idempotent: a second `destroy` (resp. `cleanupPeerConnection`,
`stopHeartbeat`) leaves the state unchanged and performs no further
side-effecting actions — every resource is released at most once. -/
theorem teardown_idempotent (s : ControllerRes) :
    destroy (destroy s).1 = ((destroy s).1, []) ∧
    cleanupPeerConnection (cleanupPeerConnection s).1 =
      ((cleanupPeerConnection s).1, []) ∧
    stopHeartbeat (stopHeartbeat s).1 = ((stopHeartbeat s).1, []) := by
  refine ⟨?_, ?_, ?_⟩
  · rw [destroy_fst]
    rfl
  · rw [cleanupPeerConnection_fst]
    rfl
  · obtain ⟨hb, si, pe, pid, mh, ls, ss, w⟩ := s
    cases hb <;> rfl

/-- C5 (amended): the bitrate computation returns exactly 0 on the first
sample of a controller's lifetime (`previousTimestamp` still holds its
initial 0) regardless of the counter values; on any later sample with
strictly increasing byte counter and timestamp it returns a nonnegative
value, strictly positive whenever the un-rounded rate
`(byte delta) × 8 / (timestamp delta / 1000)` is at least 1/2 — `Math.round`
sends smaller positive rates to 0. -/
theorem calculateBitrate_spec :
    (∀ pb b t : ℚ, (calculateBitrate ⟨pb, 0⟩ b t).1 = 0) ∧
    (∀ st : BitrateState, ∀ b t : ℚ, st.previousTimestamp ≠ 0 →
       st.previousBytes < b → st.previousTimestamp < t →
       0 ≤ (calculateBitrate st b t).1) ∧
    (∀ st : BitrateState, ∀ b t : ℚ, st.previousTimestamp ≠ 0 →
       st.previousBytes < b → st.previousTimestamp < t →
       (1 : ℚ) / 2 ≤ (b - st.previousBytes) * 8 / ((t - st.previousTimestamp) / 1000) →
       0 < (calculateBitrate st b t).1) := by
  refine ⟨?_, ?_, ?_⟩
  · intro pb b t
    simp [calculateBitrate]
  · intro st b t hne hb ht
    unfold calculateBitrate
    rw [if_neg hne]
    show (0 : ℤ) ≤ jsRound ((b - st.previousBytes) * 8 / ((t - st.previousTimestamp) / 1000))
    have hx : (0 : ℚ) ≤ (b - st.previousBytes) * 8 / ((t - st.previousTimestamp) / 1000) := by
      apply le_of_lt
      apply div_pos (by linarith) (by linarith)
    rw [jsRound, Int.le_floor]
    push_cast
    linarith
  · intro st b t hne hb ht hrate
    unfold calculateBitrate
    rw [if_neg hne]
    show (0 : ℤ) < jsRound ((b - st.previousBytes) * 8 / ((t - st.previousTimestamp) / 1000))
    have h1 : (1 : ℤ) ≤
        ⌊(b - st.previousBytes) * 8 / ((t - st.previousTimestamp) / 1000) + 1 / 2⌋ := by
      rw [Int.le_floor]
      push_cast
      linarith
    exact lt_of_lt_of_le Int.zero_lt_one h1

/-- Witness for `calculateBitrate_spec`: 1000 bytes over one millisecond. -/
theorem calculateBitrate_spec_witness :
    0 < (calculateBitrate ⟨0, 1⟩ 1000 2).1 :=
  calculateBitrate_spec.2.2 ⟨0, 1⟩ 1000 2 (by norm_num) (by norm_num) (by norm_num)
    (by norm_num)

/-- C5 counterexample: after a first sample (1 byte, t = 1000 ms), a second
sample with strictly larger counter (2 bytes) and timestamp (17001 ms)
yields `Math.round(8000/16001) = 0`, not a strictly positive value. -/
theorem calculateBitrate_counterexample :
    (calculateBitrate ⟨0, 0⟩ 1 1000).1 = 0 ∧
    (calculateBitrate ⟨0, 0⟩ 1 1000).2 = ⟨1, 1000⟩ ∧
    ((1 : ℚ) < 2 ∧ (1000 : ℚ) < 17001) ∧
    (calculateBitrate ⟨1, 1000⟩ 2 17001).1 = 0 := by
  refine ⟨by decide, by decide, by norm_num, ?_⟩
  show jsRound ((2 - 1) * 8 / ((17001 - 1000) / 1000)) = 0
  unfold jsRound
  norm_num

theorem classify_rank_antitone (pl j r1 r2 : ℚ) (hle : r1 ≤ r2) :
    qualityRank (classify r2 pl j) ≤ qualityRank (classify r1 pl j) := by
  have m1 : (r2 < 150 ∧ pl < 1 ∧ j < 30) → (r1 < 150 ∧ pl < 1 ∧ j < 30) :=
    fun h => ⟨lt_of_le_of_lt hle h.1, h.2.1, h.2.2⟩
  have m2 : (r2 < 300 ∧ pl < 3 ∧ j < 50) → (r1 < 300 ∧ pl < 3 ∧ j < 50) :=
    fun h => ⟨lt_of_le_of_lt hle h.1, h.2.1, h.2.2⟩
  have m3 : (r2 < 500 ∧ pl < 5 ∧ j < 100) → (r1 < 500 ∧ pl < 5 ∧ j < 100) :=
    fun h => ⟨lt_of_le_of_lt hle h.1, h.2.1, h.2.2⟩
  unfold classify
  by_cases a : r2 < 150 ∧ pl < 1 ∧ j < 30
  · rw [if_pos a, if_pos (m1 a)]
  · rw [if_neg a]
    by_cases b : r2 < 300 ∧ pl < 3 ∧ j < 50
    · rw [if_pos b]
      by_cases a1 : r1 < 150 ∧ pl < 1 ∧ j < 30
      · rw [if_pos a1]
        simp [qualityRank]
      · rw [if_neg a1, if_pos (m2 b)]
    · rw [if_neg b]
      by_cases c2 : r2 < 500 ∧ pl < 5 ∧ j < 100
      · rw [if_pos c2]
        by_cases a1 : r1 < 150 ∧ pl < 1 ∧ j < 30
        · rw [if_pos a1]
          simp [qualityRank]
        · rw [if_neg a1]
          by_cases b1 : r1 < 300 ∧ pl < 3 ∧ j < 50
          · rw [if_pos b1]
            simp [qualityRank]
          · rw [if_neg b1, if_pos (m3 c2)]
      · rw [if_neg c2]
        split_ifs <;> simp [qualityRank]

/-- C8: the classifier is monotone in round-trip time — for any two
non-empty histories with equal 3-sample average packet loss and jitter but
larger average round-trip time, the quality level never improves (order
excellent > good > fair > poor) — and an empty history yields `unknown`. -/
theorem quality_monotone :
    calculateQuality [] = CallQuality.unknown ∧
    (∀ h1 h2 : List CallStats, h1 ≠ [] → h2 ≠ [] →
       avgPacketLoss h1 = avgPacketLoss h2 → avgJitter h1 = avgJitter h2 →
       avgRtt h1 ≤ avgRtt h2 →
       qualityRank (calculateQuality h2) ≤ qualityRank (calculateQuality h1)) := by
  refine ⟨rfl, ?_⟩
  intro h1 h2 hne1 hne2 hpl hj hr
  have e1 : calculateQuality h1 = classify (avgRtt h1) (avgPacketLoss h1) (avgJitter h1) := by
    unfold calculateQuality
    rw [if_neg (by simpa using hne1)]
  have e2 : calculateQuality h2 = classify (avgRtt h2) (avgPacketLoss h2) (avgJitter h2) := by
    unfold calculateQuality
    rw [if_neg (by simpa using hne2)]
  rw [e1, e2, hpl, hj]
  exact classify_rank_antitone _ _ _ _ hr

/-- Witness for `quality_monotone`: one perfect sample vs one with a larger
round-trip time. -/
theorem quality_monotone_witness :
    qualityRank (calculateQuality [CallStats.mk ⟨0, 0⟩ ⟨200⟩]) ≤
      qualityRank (calculateQuality [CallStats.mk ⟨0, 0⟩ ⟨100⟩]) :=
  quality_monotone.2 [CallStats.mk ⟨0, 0⟩ ⟨100⟩] [CallStats.mk ⟨0, 0⟩ ⟨200⟩]
    (by simp) (by simp)
    (by norm_num [avgPacketLoss, recentSamples])
    (by norm_num [avgJitter, recentSamples])
    (by norm_num [avgRtt, recentSamples])

end VoIPController

namespace VoIPController

theorem lstep_attempts_le (s : LifecycleState) (e : LifecycleEvent)
    (h : s.reconnectAttempts ≤ maxReconnectAttempts) :
    (lstep s e).reconnectAttempts ≤ maxReconnectAttempts := by
  cases e with
  | socketLoss =>
      show (handleDisconnection s).1.reconnectAttempts ≤ maxReconnectAttempts
      unfold handleDisconnection
      split
      · next hc => exact hc.1
      · exact h
  | reconnectFailed =>
      simp only [lstep]
      split
      · unfold handleDisconnection
        split
        · next hc => exact hc.1
        · exact h
      · exact h
  | reconnectSucceeded =>
      simp only [lstep]
      split
      · exact Nat.zero_le _
      · exact h
  | matchedWith pid => exact h

/-- The state reached once the attempt budget is spent with no outstanding
reconnect: the counter stays pegged at the maximum, no reconnect is pending,
and the reported state is never `reconnecting`. -/
def Exhausted (s : LifecycleState) : Prop :=
  s.reconnectAttempts = maxReconnectAttempts ∧ s.pendingReconnect = false ∧
    s.connState ≠ ConnectionState.reconnecting

theorem exhausted_lstep (s : LifecycleState) (e : LifecycleEvent) (h : Exhausted s) :
    Exhausted (lstep s e) := by
  obtain ⟨h5, hp, hc⟩ := h
  cases e with
  | socketLoss =>
      show Exhausted (handleDisconnection s).1
      unfold handleDisconnection
      split
      · next hcond =>
          rw [h5] at hcond
          exact absurd hcond.1 (lt_irrefl _)
      · exact ⟨h5, hp, by simp⟩
  | reconnectFailed =>
      have he : lstep s LifecycleEvent.reconnectFailed = s := by
        simp [lstep, hp]
      rw [he]
      exact ⟨h5, hp, hc⟩
  | reconnectSucceeded =>
      have he : lstep s LifecycleEvent.reconnectSucceeded = s := by
        simp [lstep, hp]
      rw [he]
      exact ⟨h5, hp, hc⟩
  | matchedWith pid =>
      exact ⟨h5, hp, by simp [lstep]⟩

theorem exhausted_lrun (s : LifecycleState) (es : List LifecycleEvent)
    (h : Exhausted s) : Exhausted (lrun s es) := by
  induction es generalizing s with
  | nil => exact h
  | cons e es ih => exact ih _ (exhausted_lstep s e h)

/-- C4: the attempt counter never exceeds the maximum (5) along any run;
while attempts remain and a partner is assigned, a disconnection increments
the counter to `n`, reports `reconnecting` and schedules the reconnect after
`n × 2000` ms (linear backoff); once the budget is exhausted, the next
failure reports `disconnected`, schedules nothing, and no later event can
ever drive the state to `reconnecting` again. -/
theorem reconnection_policy :
    (∀ es : List LifecycleEvent,
       (lrun initLifecycle es).reconnectAttempts ≤ maxReconnectAttempts) ∧
    (∀ s : LifecycleState, s.reconnectAttempts < maxReconnectAttempts →
       s.partnerId.isSome →
       handleDisconnection s =
         ({ s with reconnectAttempts := s.reconnectAttempts + 1,
                   connState := ConnectionState.reconnecting,
                   pendingReconnect := true },
          some (reconnectBaseDelay * (s.reconnectAttempts + 1)))) ∧
    (∀ s : LifecycleState, s.reconnectAttempts = maxReconnectAttempts →
       (handleDisconnection s).1.connState = ConnectionState.disconnected ∧
       (handleDisconnection s).2 = none) ∧
    (∀ s : LifecycleState, s.reconnectAttempts = maxReconnectAttempts →
       s.pendingReconnect = false →
       ∀ es : List LifecycleEvent,
         (lrun (lstep s LifecycleEvent.socketLoss) es).connState ≠
           ConnectionState.reconnecting) := by
  refine ⟨?_, ?_, ?_, ?_⟩
  · intro es
    have : ∀ s : LifecycleState, s.reconnectAttempts ≤ maxReconnectAttempts →
        (lrun s es).reconnectAttempts ≤ maxReconnectAttempts := by
      induction es with
      | nil => exact fun s h => h
      | cons e es ih => exact fun s h => ih _ (lstep_attempts_le s e h)
    exact this initLifecycle (Nat.zero_le _)
  · intro s h1 h2
    unfold handleDisconnection
    rw [if_pos ⟨h1, h2⟩]
  · intro s h5
    unfold handleDisconnection
    rw [if_neg (fun hcond => absurd (h5 ▸ hcond.1) (lt_irrefl _))]
    exact ⟨rfl, rfl⟩
  · intro s h5 hp es
    have hex : Exhausted (lstep s LifecycleEvent.socketLoss) := by
      show Exhausted (handleDisconnection s).1
      unfold handleDisconnection
      rw [if_neg (fun hcond => absurd (h5 ▸ hcond.1) (lt_irrefl _))]
      exact ⟨h5, hp, by simp⟩
    exact (exhausted_lrun _ es hex).2.2

/-- Witness for `reconnection_policy`: the third reconnect attempt is
scheduled after 6000 ms; after exhaustion no later events re-enter
`reconnecting`. -/
theorem reconnection_policy_witness :
    handleDisconnection ⟨2, some 7, ConnectionState.connected, false⟩ =
      (⟨3, some 7, ConnectionState.reconnecting, true⟩, some 6000) ∧
    (lrun (lstep ⟨5, some 7, ConnectionState.connected, false⟩ LifecycleEvent.socketLoss)
        [LifecycleEvent.socketLoss, LifecycleEvent.matchedWith 9]).connState ≠
      ConnectionState.reconnecting :=
  ⟨reconnection_policy.2.1 ⟨2, some 7, ConnectionState.connected, false⟩
      (by decide) (by decide),
   reconnection_policy.2.2.2 ⟨5, some 7, ConnectionState.connected, false⟩ rfl rfl
      [LifecycleEvent.socketLoss, LifecycleEvent.matchedWith 9]⟩

end VoIPController
